import Mathlib

/-!
# samples/neato.go

The file holds four declarations: the interface Reader, the struct File, the
method Read on *File, and an experimental block "impl Reader for *File" that
declares Read a second time. Both bodies are the single statement
return 0, "derp".

The declarations are transcribed as data (types, signatures, bodies). A small
static semantics (method sets, interface satisfaction, assignability of the
operands of a return statement) and a small dynamic semantics (state passing
over a heap and the two local variables of a call) are defined over that data.
-/

namespace Neato

/-! ## Declarations -/

/-- Type expressions that occur in the file, with the predeclared types they use. -/
inductive Ty where
  | int
  | byte
  | string
  | error
  | slice (elem : Ty)
  | pointer (elem : Ty)
  | named (name : String)
  deriving DecidableEq, Repr

/-- Parameter types and result types of a method, in order. -/
structure Signature where
  params : List Ty
  results : List Ty
  deriving DecidableEq, Repr

/-- One method of a method set: its name and signature. -/
structure MethodSpec where
  name : String
  sig : Signature
  deriving DecidableEq, Repr

/-- Right-hand side of a type declaration. -/
inductive TypeBody where
  | interface (methods : List MethodSpec)
  | struct (fields : List (String × Ty))
  deriving DecidableEq, Repr

/-- Type declaration: type name body. -/
structure TypeDecl where
  name : String
  body : TypeBody
  deriving DecidableEq, Repr

/-- Operand expressions. The bodies in the file use an integer literal and a string
literal; nilLit is the predeclared identifier nil, the no-error value of an error result. -/
inductive Expr where
  | intLit (n : Nat)
  | strLit (s : String)
  | nilLit
  deriving DecidableEq, Repr

/-- Statements. The bodies in the file consist of one return statement. -/
inductive Stmt where
  | ret (operands : List Expr)
  deriving DecidableEq, Repr

/-- Function or method declaration. recv is the receiver (name and type) of a method. -/
structure FuncDecl where
  recv : Option (String × Ty)
  name : String
  params : List (String × Ty)
  results : List Ty
  body : List Stmt
  deriving DecidableEq, Repr

/-- Experimental block: impl iface for target, followed by function declarations
that carry no receiver of their own. -/
structure ImplBlock where
  iface : String
  target : Ty
  funcs : List FuncDecl
  deriving DecidableEq, Repr

/-- Contents of one source file. -/
structure SourceFile where
  types : List TypeDecl
  funcs : List FuncDecl
  impls : List ImplBlock
  deriving DecidableEq, Repr

/-! ## The declarations of neato.go -/

/-- Lines 3 to 5: type Reader interface, with the one method Read(p []byte) (int, error). -/
def Reader : TypeDecl :=
  ⟨"Reader", .interface [⟨"Read", ⟨[.slice .byte], [.int, .error]⟩⟩]⟩

/-- Lines 7 to 9: type File struct, with no fields. -/
def File : TypeDecl :=
  ⟨"File", .struct []⟩

/-- Lines 11 to 13: func (f *File) Read(p []byte) (int, error), body return 0, "derp". -/
def File.Read : FuncDecl :=
  ⟨some ("f", .pointer (.named "File")), "Read", [("p", .slice .byte)], [.int, .error],
    [.ret [.intLit 0, .strLit "derp"]]⟩

/-- Lines 18 to 21: func Read(p []byte) (int, error) inside the impl block,
body return 0, "derp". It has no receiver clause. -/
def implReaderForFile.Read : FuncDecl :=
  ⟨none, "Read", [("p", .slice .byte)], [.int, .error],
    [.ret [.intLit 0, .strLit "derp"]]⟩

/-- Lines 17 to 22: impl Reader for *File. -/
def implReaderForFile : ImplBlock :=
  ⟨"Reader", .pointer (.named "File"), [implReaderForFile.Read]⟩

/-- Lines 3 to 13: the conventional declarations alone. -/
def conventional : SourceFile :=
  ⟨[Reader, File], [File.Read], []⟩

/-- The whole file: the conventional declarations and the impl block. -/
def neato : SourceFile :=
  ⟨[Reader, File], [File.Read], [implReaderForFile]⟩

/-- The comment in the impl block says that "self" is in scope: a function of the
block is a method whose receiver is named self and has the target type of the block. -/
def ImplBlock.method (b : ImplBlock) (d : FuncDecl) : FuncDecl :=
  ⟨some ("self", b.target), d.name, d.params, d.results, d.body⟩

/-- All functions of an impl block, read as methods. -/
def ImplBlock.methods (b : ImplBlock) : List FuncDecl :=
  b.funcs.map b.method

/-! ## Static semantics -/

/-- Body of a declared type name, if the file declares it. -/
def SourceFile.lookup (file : SourceFile) (n : String) : Option TypeBody :=
  (file.types.find? (fun d => d.name == n)).map (fun d => d.body)

/-- Method set of the predeclared interface error: Error() string. -/
def errorMethods : List MethodSpec :=
  [⟨"Error", ⟨[], [.string]⟩⟩]

/-- Methods an interface type requires; none for a type that is no interface. -/
def interfaceMethods (file : SourceFile) : Ty → Option (List MethodSpec)
  | .error => some errorMethods
  | .named n =>
    match file.lookup n with
    | some (.interface ms) => some ms
    | _ => none
  | _ => none

/-- Name and signature of a declaration, without parameter names and receiver. -/
def FuncDecl.spec (d : FuncDecl) : MethodSpec :=
  ⟨d.name, ⟨d.params.map (fun q => q.2), d.results⟩⟩

/-- Methods the file declares with exactly the receiver type t. Impl blocks are
not consulted: they are no part of the language. -/
def declaredMethods (file : SourceFile) (t : Ty) : List MethodSpec :=
  (file.funcs.filter (fun d => d.recv.map (fun r => r.2) == some t)).map FuncDecl.spec

/-- Method set of a type: an interface has its own methods, a struct type T the
methods with receiver T, and *T the methods with receiver T or *T. -/
def methodSet (file : SourceFile) : Ty → List MethodSpec
  | .error => errorMethods
  | .named n =>
    match file.lookup n with
    | some (.interface ms) => ms
    | some (.struct _) => declaredMethods file (.named n)
    | none => []
  | .pointer (.named n) =>
    match file.lookup n with
    | some (.struct _) =>
      declaredMethods file (.named n) ++ declaredMethods file (.pointer (.named n))
    | _ => []
  | _ => []

/-- Type t implements interface type i: every method of i is in the method set of
t with the same name and signature. -/
def implements (file : SourceFile) (t i : Ty) : Bool :=
  match interfaceMethods file i with
  | some ms => ms.all (fun m => (methodSet file t).contains m)
  | none => false

/-- Default type of an untyped constant; nil has none. -/
def Expr.defaultType : Expr → Option Ty
  | .intLit _ => some .int
  | .strLit _ => some .string
  | .nilLit => none

/-- An untyped constant is representable by a value of a non-interface type
(int taken as 64 bits wide). -/
def representable : Expr → Ty → Bool
  | .intLit n, .int => decide (n < 2 ^ 63)
  | .intLit n, .byte => decide (n < 256)
  | .strLit _, .string => true
  | _, _ => false

/-- Types that have nil as a value, among the types of Ty. -/
def nilable (file : SourceFile) : Ty → Bool
  | .slice _ => true
  | .pointer _ => true
  | t => (interfaceMethods file t).isSome

/-- Assignability of an operand to a type: nil to a type that has nil; a constant
to an interface type when its default type implements the interface; a constant
to another type when it is representable there. -/
def assignable (file : SourceFile) (e : Expr) (t : Ty) : Bool :=
  match e.defaultType with
  | none => nilable file t
  | some d =>
    match interfaceMethods file t with
    | some _ => representable e d && implements file d t
    | none => representable e t

/-- A return statement is well typed for a result list when it has one operand per
result and each operand is assignable to its result type. -/
def Stmt.wellTyped (file : SourceFile) (results : List Ty) : Stmt → Bool
  | .ret es =>
    es.length == results.length &&
      (es.zip results).all (fun q => assignable file q.1 q.2)

/-- Every statement of the body is well typed for the declared results. -/
def FuncDecl.wellTyped (file : SourceFile) (d : FuncDecl) : Bool :=
  d.body.all (Stmt.wellTyped file d.results)

/-- Every function of the file, and every function of every impl block, is well typed. -/
def SourceFile.typeChecks (file : SourceFile) : Bool :=
  file.funcs.all (FuncDecl.wellTyped file) &&
    file.impls.all (fun b => b.methods.all (FuncDecl.wellTyped file))

/-- A file compiles only if it has no impl block (the language has none) and type checks. -/
def SourceFile.compiles (file : SourceFile) : Bool :=
  file.impls.isEmpty && file.typeChecks

/-! ## Dynamic semantics -/

/-- One byte. -/
abbrev Byte := Fin 256

/-- Value of the struct File: it has no fields. -/
structure FileVal where
  deriving DecidableEq, Repr

/-- Values that operands evaluate to. -/
inductive Value where
  | int (n : Int)
  | str (s : String)
  | nil
  deriving DecidableEq, Repr

/-- Heap: the allocated File structs and the backing arrays of byte slices,
both addressed by index. -/
structure Heap where
  files : List FileVal
  arrays : List (List Byte)
  deriving DecidableEq, Repr

/-- Value of type *File: nil (none) or the address of a File. -/
abbrev Pointer := Option Nat

/-- Value of type []byte: backing array (none for the nil slice), offset, length, capacity. -/
structure Slice where
  array : Option Nat
  off : Nat
  len : Nat
  cap : Nat
  deriving DecidableEq, Repr

/-- Explicit state of a call of Read: the heap and the two local variables, the
receiver and the parameter p. -/
structure State where
  heap : Heap
  recv : Pointer
  p : Slice
  deriving DecidableEq, Repr

/-- What a call leaves behind: the returned values and the state at the return. -/
structure Outcome where
  results : List Value
  state : State
  deriving DecidableEq, Repr

/-- The File a pointer points to. -/
def Heap.file (h : Heap) : Pointer → Option FileVal
  | none => none
  | some a => h.files[a]?

/-- Element i of a slice, for i below its length. -/
def Heap.byteAt (h : Heap) (p : Slice) (i : Nat) : Option Byte :=
  if i < p.len then
    (p.array.bind (fun a => h.arrays[a]?)).bind (fun arr => arr[p.off + i]?)
  else none

/-- Value of an operand. All three forms are constants. -/
def evalExpr : Expr → Value
  | .intLit n => .int n
  | .strLit s => .str s
  | .nilLit => .nil

/-- A return statement evaluates its operands in order and leaves the state as it is. -/
def execStmt (s : State) : Stmt → Outcome
  | .ret es => ⟨es.map evalExpr, s⟩

/-- Run a body: the first statement, a return, ends the call. A body with no
statement never returns a result. -/
def execBody (s : State) : List Stmt → Option Outcome
  | [] => none
  | st :: _ => some (execStmt s st)

/-- Call a method in a state that holds its receiver and its argument. -/
def call (d : FuncDecl) (s : State) : Option Outcome :=
  execBody s d.body

/-- First result: the byte count. -/
def Outcome.count (o : Outcome) : Option Value :=
  o.results[0]?

/-- Second result: the value in the error position. -/
def Outcome.err (o : Outcome) : Option Value :=
  o.results[1]?

/-- A call succeeds when it returns and its error result is nil. -/
def succeeded : Option Outcome → Bool
  | some o => o.err == some Value.nil
  | none => false

/-! ## Checks of the semantics on small inputs -/

/-- The value type File has no method with a value receiver, so File itself does
not implement Reader; only *File can. -/
theorem File_value_not_Reader :
    implements conventional (.named "File") (.named "Reader") = false := by
  decide

/-- The checker accepts return 0, nil for the results (int, error). -/
theorem ret_zero_nil_wellTyped :
    Stmt.wellTyped neato [.int, .error] (.ret [.intLit 0, .nilLit]) = true := by
  decide

/-- A body return 0, nil succeeds in every state. -/
theorem ret_zero_nil_succeeded (s : State) :
    succeeded (execBody s [.ret [.intLit 0, .nilLit]]) = true :=
  rfl

/-- The method of the impl block differs from the conventional method in the
receiver name only. -/
theorem impl_method_eq :
    ImplBlock.method implReaderForFile implReaderForFile.Read =
      ⟨some ("self", .pointer (.named "File")), "Read", [("p", .slice .byte)],
        [.int, .error], [.ret [.intLit 0, .strLit "derp"]]⟩ :=
  rfl

/-- The impl block holds exactly one method. -/
theorem impl_methods_eq :
    implReaderForFile.methods =
      [ImplBlock.method implReaderForFile implReaderForFile.Read] :=
  rfl

/-- Outcome of the conventional Read in any state. -/
theorem call_File_Read (s : State) :
    call File.Read s = some ⟨[Value.int 0, Value.str "derp"], s⟩ :=
  rfl

/-- Outcome of the Read of the impl block in any state. -/
theorem call_impl_Read (s : State) :
    call (ImplBlock.method implReaderForFile implReaderForFile.Read) s =
      some ⟨[Value.int 0, Value.str "derp"], s⟩ :=
  rfl

/-! ## The claims -/

/-- C1: for every heap, every receiver f (nil or an address) and every byte slice p
(nil, empty or not), the call of the conventional (*File).Read returns and its first
result, the byte count, is the int 0; so the count is the same whatever the heap,
the receiver and the slice are. -/
theorem C1_Read_count_zero (h : Heap) (f : Pointer) (p : Slice) :
    (call File.Read ⟨h, f, p⟩).bind Outcome.count = some (Value.int 0) ∧
    ∀ (h2 : Heap) (f2 : Pointer) (p2 : Slice),
      (call File.Read ⟨h2, f2, p2⟩).bind Outcome.count =
        (call File.Read ⟨h, f, p⟩).bind Outcome.count :=
  ⟨rfl, fun _ _ _ => rfl⟩

/-- C2: for every heap, receiver f and byte slice p, the call of (*File).Read returns
and its second result, the value in the error position, is the fixed value with the
text "derp"; it is not nil, so the call does not succeed. The slice p ranges over all
slices, those of length 0 included. -/
theorem C2_Read_err_derp (h : Heap) (f : Pointer) (p : Slice) :
    (call File.Read ⟨h, f, p⟩).bind Outcome.err = some (Value.str "derp") ∧
    (call File.Read ⟨h, f, p⟩).bind Outcome.err ≠ some Value.nil ∧
    succeeded (call File.Read ⟨h, f, p⟩) = false := by
  refine ⟨rfl, ?_, rfl⟩
  show some (Value.str "derp") ≠ some Value.nil
  decide

/-- C3: for every heap, receiver and byte slice p, the Read of the block
impl Reader for *File, called with the receiver bound to self, returns the same
results as the conventional (*File).Read, and these are 0 and "derp"; the two calls
leave the same state as well. -/
theorem C3_impl_Read_agrees (h : Heap) (f : Pointer) (p : Slice) :
    (call (ImplBlock.method implReaderForFile implReaderForFile.Read) ⟨h, f, p⟩).map
        Outcome.results =
      (call File.Read ⟨h, f, p⟩).map Outcome.results ∧
    (call File.Read ⟨h, f, p⟩).map Outcome.results =
      some [Value.int 0, Value.str "derp"] ∧
    call (ImplBlock.method implReaderForFile implReaderForFile.Read) ⟨h, f, p⟩ =
      call File.Read ⟨h, f, p⟩ :=
  ⟨rfl, rfl, rfl⟩

/-- C4: Reader requires exactly one method, Read, with one parameter of type []byte
and the results (int, error); the conventional declarations give *File exactly one
method, declared with receiver *File, of that name, parameter type and result types;
so *File implements Reader, in the conventional declarations and in the whole file. -/
theorem C4_File_implements_Reader :
    interfaceMethods conventional (.named "Reader") =
      some [⟨"Read", ⟨[.slice .byte], [.int, .error]⟩⟩] ∧
    File.Read.recv.map (fun r => r.2) = some (.pointer (.named "File")) ∧
    File.Read.spec = ⟨"Read", ⟨[.slice .byte], [.int, .error]⟩⟩ ∧
    methodSet conventional (.pointer (.named "File")) = [File.Read.spec] ∧
    implements conventional (.pointer (.named "File")) (.named "Reader") = true ∧
    implements neato (.pointer (.named "File")) (.named "Reader") = true := by
  decide

/-- C5: in both versions of Read the operand in the error position of the return
statement is the string literal "derp"; its type string has no method, does not
implement error, and the literal is not assignable to error; so the return statement
is ill typed in both versions, and neither the conventional declarations nor the
whole file type check or compile. -/
theorem C5_return_ill_typed :
    File.Read.body = [.ret [.intLit 0, .strLit "derp"]] ∧
    implReaderForFile.Read.body = [.ret [.intLit 0, .strLit "derp"]] ∧
    File.Read.results = [.int, .error] ∧
    implReaderForFile.Read.results = [.int, .error] ∧
    (Expr.strLit "derp").defaultType = some .string ∧
    methodSet neato .string = [] ∧
    implements neato .string .error = false ∧
    assignable neato (.strLit "derp") .error = false ∧
    assignable neato (.intLit 0) .int = true ∧
    Stmt.wellTyped neato [.int, .error] (.ret [.intLit 0, .strLit "derp"]) = false ∧
    FuncDecl.wellTyped neato File.Read = false ∧
    FuncDecl.wellTyped neato
      (ImplBlock.method implReaderForFile implReaderForFile.Read) = false ∧
    conventional.typeChecks = false ∧
    neato.typeChecks = false ∧
    conventional.compiles = false ∧
    neato.compiles = false := by
  decide

/-- C6: for every heap, receiver f and byte slice p, the call of (*File).Read returns
and leaves the heap, the receiver and the slice as they were: the length of p, every
byte of p and the File that f points to are the same after the call as before. -/
theorem C6_Read_frame (h : Heap) (f : Pointer) (p : Slice) :
    ∃ o : Outcome, call File.Read ⟨h, f, p⟩ = some o ∧
      o.state.heap = h ∧ o.state.recv = f ∧ o.state.p = p ∧
      o.state.p.len = p.len ∧
      (∀ i : Nat, o.state.heap.byteAt p i = h.byteAt p i) ∧
      o.state.heap.file f = h.file f :=
  ⟨⟨[Value.int 0, Value.str "derp"], ⟨h, f, p⟩⟩, rfl, rfl, rfl, rfl, rfl, fun _ => rfl, rfl⟩

end Neato
